import Mathlib

/-!
# Verification of the HLAT XPath-to-Qt-locator pipeline

A shallow embedding of `hlat.hpp` (single-header C++ library): the XPath
lexer (`XPathLexer::tokenize`), the recursive-descent parser
(`XPathParser::parse`), the heuristic classifier
(`HeuristicQtClassifier::operator()`), the step-to-locator converter
(`XPathConverter::convert` / `generateUid`) and the four-stage pipeline
object (`QtPythonDeclarationsFrom`).

Strings are modeled as `List Char`; the C++ code works on bytes, and all
inputs of interest are ASCII, where the two coincide.  `<cctype>`
classification functions are modeled with their "C"-locale ASCII meaning.
C++ exceptions become `Except String`. The C++ `while` loops of the lexer
and parser are modeled with an explicit fuel argument that counts loop
iterations; every iteration consumes at least one character (resp. token),
so a fuel equal to the input length is always sufficient and the
fuel-exhaustion branch is unreachable from the top-level entry points.
-/

set_option maxHeartbeats 1600000

namespace Hlat

/-- Strings as lists of characters. -/
abbrev Str := List Char

deriving instance DecidableEq for Except

/-- The single-quote character (ASCII 39). -/
def sq : Char := Char.ofNat 39

/-- The double-quote character (ASCII 34). -/
def dq : Char := Char.ofNat 34

/-- C `isspace` in the "C" locale (ASCII). -/
def isSpaceA (c : Char) : Bool :=
  c == ' ' || c == Char.ofNat 9 || c == Char.ofNat 10 || c == Char.ofNat 11 ||
  c == Char.ofNat 12 || c == Char.ofNat 13

/-- C `isdigit` in the "C" locale (ASCII). -/
def isDigitA (c : Char) : Bool :=
  decide (48 ≤ c.toNat ∧ c.toNat ≤ 57)

/-- C `isalpha` in the "C" locale (ASCII). -/
def isAlphaA (c : Char) : Bool :=
  decide ((65 ≤ c.toNat ∧ c.toNat ≤ 90) ∨ (97 ≤ c.toNat ∧ c.toNat ≤ 122))

/-- C `isalnum` in the "C" locale (ASCII). -/
def isAlnumA (c : Char) : Bool := isDigitA c || isAlphaA c

/-- C `tolower` in the "C" locale (ASCII). -/
def toLowerA (c : Char) : Char :=
  if 65 ≤ c.toNat ∧ c.toNat ≤ 90 then Char.ofNat (c.toNat + 32) else c

/-- `util::toLowerInPlace`, as a pure function. -/
def lowerStr (s : Str) : Str := s.map toLowerA

/-- The per-character step of `util::canonicalize`: keep alphanumerics,
replace every other character by an underscore. -/
def replU (c : Char) : Char := if isAlnumA c then c else '_'

/-- The `std::regex_replace(out, "_+", "_")` step of `util::canonicalize`:
collapse every maximal run of underscores to a single underscore. -/
def collapseU : Str → Str
  | [] => []
  | [c] => [c]
  | a :: b :: rest =>
    if a = '_' ∧ b = '_' then collapseU (b :: rest)
    else a :: collapseU (b :: rest)

/-- The `if (out.front() == '_') out.erase(0, 1)` step of
`util::canonicalize`: drop one leading underscore. -/
def trimLeadU (l : Str) : Str :=
  if l.head? = some '_' then l.tail else l

/-- The `if (out.back() == '_') out.pop_back()` step of `util::canonicalize`:
drop one trailing underscore, modeled via `reverse`.
`trimTrailU_spec` below checks this against the direct
`getLast?`/`dropLast` reading of the source. -/
def trimTrailU (l : Str) : Str := (trimLeadU l.reverse).reverse

/-- `util::canonicalize`. -/
def canonicalize (l : Str) : Str :=
  trimTrailU (trimLeadU (collapseU (l.map replU)))

/-- `util::endsWith`: suffix test. -/
def endsWithA (hay needle : Str) : Bool := decide (needle <:+ hay)

/-- `util::contains`: substring test (`str.find(needle) != npos`). -/
def containsA (hay needle : Str) : Bool := decide (needle <:+: hay)

/-- `HeuristicQtClassifier::operator()`: the fixed if-chain from the source,
applied to the lowercased tag. `endsWithA` models `util::endsWith` and
`containsA` models `util::contains`. -/
def classify (tagIn : Str) : Str :=
  let tag := lowerStr tagIn
  if tag = "button".toList then "PushButtonQT".toList
  else if tag = "container".toList then "ScrollViewQT".toList
  else if tag = "form".toList then "ModuleQT".toList
  else if tag = "textfield".toList then "TextFieldQT".toList
  else if endsWithA tag "button".toList then "PushButtonQT".toList
  else if endsWithA tag "checkbox".toList then "CheckBoxQT".toList
  else if endsWithA tag "radiobutton".toList then "RadioButtonQT".toList
  else if endsWithA tag "combobox".toList then "ComboBoxQT".toList
  else if endsWithA tag "slider".toList then "SliderQT".toList
  else if endsWithA tag "label".toList then "LabelQT".toList
  else if endsWithA tag "view".toList then "ScrollViewQT".toList
  else if endsWithA tag "field".toList then "TextFieldQT".toList
  else if containsA tag "button".toList then "PushButtonQT".toList
  else if containsA tag "field".toList then "TextFieldQT".toList
  else if containsA tag "text".toList then "TextFieldQT".toList
  else if containsA tag "container".toList then "ScrollViewQT".toList
  else if containsA tag "panel".toList then "ScrollViewQT".toList
  else if containsA tag "form".toList then "ModuleQT".toList
  else "QWidget".toList

/-- Refinement counterpart of `classify` following the spec's words
(section 4.2): an explicit ordered list of (predicate, label) rules. -/
def classifierRules : List ((Str → Bool) × Str) :=
  [ (fun t => decide (t = "button".toList), "PushButtonQT".toList),
    (fun t => decide (t = "container".toList), "ScrollViewQT".toList),
    (fun t => decide (t = "form".toList), "ModuleQT".toList),
    (fun t => decide (t = "textfield".toList), "TextFieldQT".toList),
    (fun t => endsWithA t "button".toList, "PushButtonQT".toList),
    (fun t => endsWithA t "checkbox".toList, "CheckBoxQT".toList),
    (fun t => endsWithA t "radiobutton".toList, "RadioButtonQT".toList),
    (fun t => endsWithA t "combobox".toList, "ComboBoxQT".toList),
    (fun t => endsWithA t "slider".toList, "SliderQT".toList),
    (fun t => endsWithA t "label".toList, "LabelQT".toList),
    (fun t => endsWithA t "view".toList, "ScrollViewQT".toList),
    (fun t => endsWithA t "field".toList, "TextFieldQT".toList),
    (fun t => containsA t "button".toList, "PushButtonQT".toList),
    (fun t => containsA t "field".toList, "TextFieldQT".toList),
    (fun t => containsA t "text".toList, "TextFieldQT".toList),
    (fun t => containsA t "container".toList, "ScrollViewQT".toList),
    (fun t => containsA t "panel".toList, "ScrollViewQT".toList),
    (fun t => containsA t "form".toList, "ModuleQT".toList) ]

/-- Refinement counterpart of `classify` following the spec's words:
first matching rule wins, with the default fallback label. -/
def classifyByRules (tagIn : Str) : Str :=
  let tag := lowerStr tagIn
  match classifierRules.find? (fun r => r.1 tag) with
  | some r => r.2
  | none => "QWidget".toList

/-- `TokenType` from the source. -/
inductive TokenType where
  | Tag
  | Attribute
  | Axis
  | Predicate
  | Operator
  | Literal
  | Wildcard
  | Namespace
  | Slash
  | End
deriving DecidableEq

/-- `Token` from the source. -/
structure Token where
  type : TokenType
  value : Str
  position : Nat
deriving DecidableEq

/-- Is a character one of the two quote characters. -/
def isQuote (c : Char) : Bool := c == dq || c == sq

/-- The quoted-literal scanning loop of `XPathLexer::tokenize`: scan to the
matching closing quote, a backslash protecting the following character.
Returns the raw content (escapes kept) and the input after the closing
quote, or `none` when input ends first (the unterminated case). -/
def lexLiteral (q : Char) : Str → Option (Str × Str)
  | [] => none
  | c :: rest =>
    if c = q then some ([], rest)
    else if c = '\\' then
      match rest with
      | [] => none
      | r :: rest2 => (lexLiteral q rest2).map (fun p => (c :: r :: p.1, p.2))
    else (lexLiteral q rest).map (fun p => (c :: p.1, p.2))

/-- The `strchr("/[]@=!<>*", c)` delimiter test of the identifier scan. -/
def isIdDelim (c : Char) : Bool :=
  c == '/' || c == '[' || c == ']' || c == '@' || c == '=' || c == '!' ||
  c == '<' || c == '>' || c == '*'

/-- Stop condition of the axis-name scan (space, colon or slash). -/
def axisStop (c : Char) : Bool := isSpaceA c || c == ':' || c == '/'

/-- Stop condition of the generic identifier scan. -/
def wordStop (c : Char) : Bool := isSpaceA c || isIdDelim c

/-- The default branch of the lexer loop: the axis lookahead (guarded by
`input[pos+1] == ':' && input[pos+2] == ':'`, i.e. the list having at least
three characters with the second and third being colons, exactly as in the
source) and, failing that, the generic identifier scan. Returns the emitted
token, the remaining input and the new position. -/
def lexWord (l : Str) (p : Nat) : Token × Str × Nat :=
  let tryAxis : Option (Token × Str × Nat) :=
    match l with
    | _ :: ':' :: ':' :: _ =>
      match l.dropWhile (fun c => !axisStop c) with
      | ':' :: ':' :: r3 =>
        some (⟨.Axis, l.takeWhile (fun c => !axisStop c), p⟩, r3,
          p + (l.takeWhile (fun c => !axisStop c)).length + 2)
      | _ => none
    | _ => none
  match tryAxis with
  | some t => t
  | none =>
    let idf := l.takeWhile (fun c => !wordStop c)
    (⟨.Tag, idf, p⟩, l.dropWhile (fun c => !wordStop c), p + idf.length)

/-- The main loop of `XPathLexer::tokenize`. `fuel` counts loop iterations;
each iteration consumes at least one character (see `tokenize`). -/
def tokenizeAux : Nat → Str → Nat → Except String (List Token)
  | _, [], p => .ok [⟨.End, [], p⟩]
  | 0, _ :: _, _ => .error "lexer fuel exhausted"
  | fuel + 1, c :: rest, p =>
    if isSpaceA c then tokenizeAux fuel rest (p + 1)
    else if c = '/' then
      match rest with
      | '/' :: rest2 => (tokenizeAux fuel rest2 (p + 2)).map (⟨.Slash, ['/', '/'], p⟩ :: ·)
      | _ => (tokenizeAux fuel rest (p + 1)).map (⟨.Slash, ['/'], p⟩ :: ·)
    else if c = '@' then (tokenizeAux fuel rest (p + 1)).map (⟨.Attribute, ['@'], p⟩ :: ·)
    else if c = '[' then (tokenizeAux fuel rest (p + 1)).map (⟨.Predicate, ['['], p⟩ :: ·)
    else if c = ']' then (tokenizeAux fuel rest (p + 1)).map (⟨.Predicate, [']'], p⟩ :: ·)
    else if c = '*' then (tokenizeAux fuel rest (p + 1)).map (⟨.Wildcard, ['*'], p⟩ :: ·)
    else if isQuote c then
      match lexLiteral c rest with
      | none => .error "Unterminated string literal"
      | some (content, rest2) =>
        (tokenizeAux fuel rest2 (p + 1 + content.length + 1)).map
          (⟨.Literal, content, p + 1⟩ :: ·)
    else if c = '=' ∨ c = '!' ∨ c = '>' ∨ c = '<' then
      match rest with
      | '=' :: rest2 => (tokenizeAux fuel rest2 (p + 2)).map (⟨.Operator, [c, '='], p⟩ :: ·)
      | _ => (tokenizeAux fuel rest (p + 1)).map (⟨.Operator, [c], p⟩ :: ·)
    else
      match lexWord (c :: rest) p with
      | (tk, rest2, p2) => (tokenizeAux fuel rest2 p2).map (tk :: ·)

/-- `XPathLexer::tokenize`. -/
def tokenize (l : Str) : Except String (List Token) := tokenizeAux l.length l 0

/-- `AttributePredicate` from the source. -/
structure AttributePredicate where
  name : Str
  value : Str
  op : Str
deriving DecidableEq

/-- `PositionPredicate` from the source (C++ `int`; claims only exercise
small values, so overflow is not modeled). -/
structure PositionPredicate where
  position : Int
deriving DecidableEq

/-- The `std::variant<AttributePredicate, PositionPredicate>` condition. -/
inductive Cond where
  | attr (a : AttributePredicate)
  | pos (p : PositionPredicate)
deriving DecidableEq

/-- `ComplexPredicate` from the source. -/
structure ComplexPredicate where
  conditions : List Cond
deriving DecidableEq

/-- `XLocator` from the source. -/
structure XLocator where
  axis : Str
  tag : Str
  predicate : Option ComplexPredicate
  is_absolute : Bool
deriving DecidableEq

/-- The `End` token used as the out-of-range default; the real token vector
always ends with an `End` token, which the parser never consumes. -/
def endTok : Token := ⟨.End, [], 0⟩

/-- `current()`: the token at the parser's position. -/
def cur (ts : List Token) : Token := ts.headD endTok

/-- `peek(n)`: the token `n` places ahead of the parser's position. -/
def peekTok (ts : List Token) (n : Nat) : Token := ts.getD n endTok

/-- The backslash unescaping applied to quoted attribute values in
`parsePredicate`. -/
def unescape : Str → Str
  | [] => []
  | '\\' :: d :: rest => d :: unescape rest
  | c :: rest => c :: unescape rest

/-- `std::stoi` as applied to token text beginning with a digit: the value
of the leading digit run. -/
def stoiA (l : Str) : Int :=
  ((l.takeWhile isDigitA).foldl (fun n c => n * 10 + (c.toNat - 48)) 0 : Nat)

/-- The loop of `XPathParser::parsePredicate`. `fuel` counts loop
iterations; every iteration consumes at least one token. `acc` is the
condition list built so far (`emplace_back` order). -/
def parsePredicateAux (fuel : Nat) (ts : List Token) (acc : List Cond) :
    Except String (ComplexPredicate × List Token) :=
  if (cur ts).type = .Predicate ∧ (cur ts).value = [']'] then .ok (⟨acc⟩, ts)
  else match fuel with
    | 0 => .error "predicate fuel exhausted"
    | fuel + 1 =>
      if (cur ts).type = .Tag ∧ (peekTok ts 1).type = .Operator ∧
          ((peekTok ts 2).type = .Literal ∨ (peekTok ts 2).type = .Tag) then
        -- unprefixed comparison e.g. price>35; the value is stored raw
        parsePredicateAux fuel (ts.drop 3)
          (acc ++ [.attr ⟨(cur ts).value, (peekTok ts 2).value, (peekTok ts 1).value⟩])
      else if (cur ts).type = .Attribute then
        -- @name op literal; each consume() checks the token type
        if (peekTok ts 1).type = .Tag then
          if (peekTok ts 2).type = .Operator then
            if (peekTok ts 3).type = .Literal then
              parsePredicateAux fuel (ts.drop 4)
                (acc ++ [.attr ⟨(peekTok ts 1).value, unescape (peekTok ts 3).value,
                  (peekTok ts 2).value⟩])
            else .error "Unexpected token"
          else .error "Unexpected token"
        else .error "Unexpected token"
      else if isDigitA ((cur ts).value.headD (Char.ofNat 0)) then
        if (cur ts).type = .Tag then
          parsePredicateAux fuel (ts.drop 1) (acc ++ [.pos ⟨stoiA (cur ts).value⟩])
        else .error "Unexpected token"
      else if (cur ts).type = .Tag ∧
          ((cur ts).value = "and".toList ∨ (cur ts).value = "or".toList) then
        parsePredicateAux fuel (ts.drop 1) acc
      else
        .error ("Unexpected token in predicate at pos " ++ toString (cur ts).position)

/-- `XPathParser::parseStep`. Returns the parsed step and the remaining
tokens. Note that the source's `match(Predicate)` consumes a
predicate-bracket token even when it is not `[`, in which case the
predicate body is skipped. -/
def parseStep (ts : List Token) (is_abs : Bool) : Except String (XLocator × List Token) :=
  let axisPair := if (cur ts).type = .Axis then ((cur ts).value, ts.drop 1)
    else ("child".toList, ts)
  let ax := axisPair.1
  let ts1 := axisPair.2
  let tagRes : Except String (Str × List Token) :=
    if (cur ts1).type = .Wildcard then .ok (['*'], ts1.drop 1)
    else if (cur ts1).type = .Tag then .ok ((cur ts1).value, ts1.drop 1)
    else .error ("Expected tag or " ++ sq.toString ++ "*" ++ sq.toString ++
      " at pos " ++ toString (cur ts1).position)
  tagRes.bind fun tr =>
    let tag := tr.1
    let ts2 := tr.2
    let predRes : Except String (Option ComplexPredicate × List Token) :=
      if (cur ts2).type = .Predicate then
        if (cur ts2).value = ['['] then
          (parsePredicateAux (ts2.drop 1).length (ts2.drop 1) []).bind fun pr =>
            let ts3 := pr.2
            if (cur ts3).type = .Predicate then
              if (cur ts3).value = [']'] then .ok (some pr.1, ts3.drop 1)
              else .error ("Expected closing " ++ sq.toString ++ "]" ++ sq.toString ++
                " at pos " ++ toString (cur (ts3.drop 1)).position)
            else .error ("Expected closing " ++ sq.toString ++ "]" ++ sq.toString ++
              " at pos " ++ toString (cur ts3).position)
        else .ok (none, ts2.drop 1)
      else .ok (none, ts2)
    predRes.bind fun pr =>
      let ts4 := pr.2
      if (cur ts4).type = .Namespace then
        .ok (⟨ax, (cur ts4).value ++ [':'] ++ tag, pr.1, is_abs⟩, ts4.drop 1)
      else .ok (⟨ax, tag, pr.1, is_abs⟩, ts4)

/-- The synthetic step the parser pushes for two consecutive `Slash`
tokens. -/
def synthStep : XLocator := ⟨"descendant-or-self".toList, ['*'], none, true⟩

/-- The loop of `XPathParser::parse`. `fuel` counts loop iterations; every
iteration consumes at least one token. -/
def parseStepsAux (fuel : Nat) (ts : List Token) : Except String (List XLocator) :=
  if (cur ts).type = .End then .ok []
  else match fuel with
    | 0 => .error "parser fuel exhausted"
    | fuel + 1 =>
      if (cur ts).type = .Slash then
        if (cur (ts.drop 1)).type = .Slash then
          (parseStepsAux fuel (ts.drop 2)).map (synthStep :: ·)
        else
          (parseStep (ts.drop 1) true).bind fun sr =>
            (parseStepsAux fuel sr.2).map (sr.1 :: ·)
      else
        (parseStep ts false).bind fun sr =>
          (parseStepsAux fuel sr.2).map (sr.1 :: ·)

/-- `XPathParser::parse`. -/
def parseSteps (ts : List Token) : Except String (List XLocator) :=
  parseStepsAux ts.length ts

/-- Scalar values stored in the locator metadata. -/
inductive JVal where
  | str (s : Str)
  | num (n : Int)
deriving DecidableEq

/-- `nlohmann::json` object assignment `m[k] = v`: overwrite the value when
the key is present, insert the pair otherwise. The claims observe only key
lookup, not serialization order. -/
def jset (m : List (Str × JVal)) (k : Str) (v : JVal) : List (Str × JVal) :=
  match m with
  | [] => [(k, v)]
  | (k2, v2) :: rest => if k2 = k then (k, v) :: rest else (k2, v2) :: jset rest k v

/-- Key lookup in the locator metadata. -/
def jget (m : List (Str × JVal)) (k : Str) : Option JVal :=
  match m with
  | [] => none
  | (k2, v2) :: rest => if k2 = k then some v2 else jget rest k

/-- `QtLocator` from the source (the `finalize` renderer is not modeled;
no claim observes it). -/
structure QtLocator where
  uid : Str
  meta : List (Str × JVal)
  container : Str
deriving DecidableEq

/-- `XPathConverter::generateUid`. -/
def generateUid (parent : Str) (step : XLocator) (arch : Str) : Str :=
  let token := if step.tag = ['*'] then "any".toList else step.tag
  let uid0 := if parent = [] then token ++ ['_'] ++ arch
    else parent ++ ['_'] ++ token ++ ['_'] ++ arch
  let uid1 :=
    match step.predicate with
    | none => uid0
    | some p =>
      p.conditions.foldl (fun u c =>
        match c with
        | .attr a => u ++ ['_'] ++ a.name ++ ['_'] ++ a.value
        | .pos _ => u) uid0
  canonicalize uid1

/-- The metadata block `XPathConverter::convert` builds for one step:
the archetype first, then one entry per attribute condition, an
`occurrence` entry for a position condition greater than one, and the
fixed `visible` flag last. -/
def stepMeta (arch : Str) (step : XLocator) : List (Str × JVal) :=
  let m0 := jset [] "archetype".toList (.str arch)
  let m1 :=
    match step.predicate with
    | none => m0
    | some p =>
      p.conditions.foldl (fun m c =>
        match c with
        | .attr a => jset m a.name (.str a.value)
        | .pos pp => if pp.position > 1 then jset m "occurrence".toList (.num pp.position)
          else m) m0
  jset m1 "visible".toList (.num 1)

/-- The loop of `XPathConverter::convert`, carrying the running `parent`
container uid. -/
def convertAux (steps : List XLocator) (parent : Str) : List QtLocator :=
  match steps with
  | [] => []
  | st :: rest =>
    let arch := classify st.tag
    let uid := generateUid parent st arch
    ⟨uid, stepMeta arch st, parent⟩ :: convertAux rest uid

/-- `XPathConverter::convert` (the initial container is empty). -/
def convert (steps : List XLocator) : List QtLocator := convertAux steps []

/-- The mutable state of a `QtPythonDeclarationsFrom` pipeline object: its
`_cache` field. -/
structure PipeState where
  cache : List QtLocator
deriving DecidableEq

/-- `QtPythonDeclarationsFrom::operator()` with the default stages, the
mutable `_cache` field made explicit state. The `declare_` stage is a
caller-supplied pure function of `_cache`, so the converted locator list
is returned as the call's result; a lexer/parser exception propagates to
the caller, leaving `_cache` unchanged. -/
def pipeRun (st : PipeState) (input : Str) : Except String (List QtLocator) × PipeState :=
  match (tokenize input).bind parseSteps with
  | .error e => (.error e, st)
  | .ok steps => (.ok (convert steps), ⟨convert steps⟩)

/-- The uid formula as the spec words it (section 4.4 rule 2):
canonicalize of container + "_" + node-test text + "_" + category +
"_name_value" per attribute condition, the leading container segment
omitted when the container is empty. Refinement counterpart of
`generateUid` for claim C2. -/
def uidSpec (container nodeTest category : Str) (conds : List Cond) : Str :=
  canonicalize
    ((if container = [] then [] else container ++ ['_']) ++ nodeTest ++ ['_'] ++ category ++
      conds.foldr (fun c acc =>
        match c with
        | .attr a => ['_'] ++ a.name ++ ['_'] ++ a.value ++ acc
        | .pos _ => acc) [])

/-- The attribute-condition list of a step (empty when it has no
predicate). -/
def condsOf (step : XLocator) : List Cond :=
  match step.predicate with
  | none => []
  | some p => p.conditions

/-- The value of the last attribute condition with the given name, if
any. -/
def lastAttr (conds : List Cond) (k : Str) : Option Str :=
  match conds with
  | [] => none
  | c :: rest =>
    match lastAttr rest k with
    | some v => some v
    | none =>
      match c with
      | .attr a => if a.name = k then some a.value else none
      | .pos _ => none

/-- No two adjacent underscores (invariant of collapsed strings). -/
def NoAdjU (l : Str) : Prop :=
  List.Chain' (fun a b => ¬(a = '_' ∧ b = '_')) l

/-- The first character, if any, is not an underscore (invariant of
leading-trimmed strings). -/
def HNU (l : Str) : Prop := l.head? ≠ some '_'

/-- A concrete wildcard step, used by witnesses. -/
def wWild : XLocator := ⟨"child".toList, ['*'], none, true⟩

/-- A concrete step carrying `visible` and `archetype` attribute conditions,
used by witnesses. -/
def wStep : XLocator :=
  ⟨"child".toList, "button".toList,
    some ⟨[.attr ⟨"visible".toList, "0".toList, "=".toList⟩,
           .attr ⟨"archetype".toList, "Custom".toList, "=".toList⟩]⟩, false⟩

/-- The concrete input of scenario B / claim C7:
`//button[@name='submit' and @enabled='true']`. -/
def c7input : Str :=
  "//button[@name=".toList ++ [sq] ++ "submit".toList ++ [sq] ++
  " and @enabled=".toList ++ [sq] ++ "true".toList ++ [sq] ++ "]".toList

/-! ## Character lemmas -/

theorem char_toNat_ofNat {n : Nat} (h : n < 55296) : (Char.ofNat n).toNat = n := by
  unfold Char.ofNat
  split
  · rfl
  · next h2 => exact absurd (Or.inl h) h2

theorem toLowerA_idem (c : Char) : toLowerA (toLowerA c) = toLowerA c := by
  unfold toLowerA
  by_cases h : 65 ≤ c.toNat ∧ c.toNat ≤ 90
  · rw [if_pos h]
    have h2 : (Char.ofNat (c.toNat + 32)).toNat = c.toNat + 32 :=
      char_toNat_ofNat (by omega)
    rw [if_neg (by rw [h2]; omega)]
  · rw [if_neg h, if_neg h]

theorem map_self_of_fixed {f : Char → Char} {l : Str} (h : ∀ c ∈ l, f c = c) :
    l.map f = l := by
  induction l with
  | nil => rfl
  | cons a rest ih =>
    simp only [List.map_cons]
    rw [h a (List.mem_cons_self a rest),
      ih (fun c hc => h c (List.mem_cons_of_mem a hc))]

theorem lowerStr_idem (s : Str) : lowerStr (lowerStr s) = lowerStr s := by
  unfold lowerStr
  exact map_self_of_fixed (fun c hc => by
    rcases List.mem_map.mp hc with ⟨x, _, hx⟩
    rw [← hx]; exact toLowerA_idem x)

theorem isAlnumA_underscore : isAlnumA '_' = false := by decide

/-! ## Canonicalization lemmas -/

theorem collapseU_cons_head? (b : Char) (rest : Str) :
    (collapseU (b :: rest)).head? = some b := by
  induction rest generalizing b with
  | nil => rfl
  | cons c r ih =>
    by_cases h : b = '_' ∧ c = '_'
    · simp only [collapseU, if_pos h]
      rw [ih c, h.1, h.2]
    · simp only [collapseU, if_neg h, List.head?_cons]

theorem noAdjU_collapseU (l : Str) : NoAdjU (collapseU l) := by
  induction l with
  | nil => simp [collapseU, NoAdjU]
  | cons a rest ih =>
    cases rest with
    | nil => simp [collapseU, NoAdjU]
    | cons b r =>
      by_cases h : a = '_' ∧ b = '_'
      · simpa only [collapseU, if_pos h] using ih
      · unfold NoAdjU
        simp only [collapseU, if_neg h]
        rw [List.chain'_cons']
        refine ⟨?_, ih⟩
        intro y hy
        rw [collapseU_cons_head? b r] at hy
        simp only [Option.mem_def, Option.some.injEq] at hy
        intro hc
        exact h ⟨hc.1, hy ▸ hc.2⟩

theorem collapseU_eq_self {l : Str} (h : NoAdjU l) : collapseU l = l := by
  induction l with
  | nil => rfl
  | cons a rest ih =>
    cases rest with
    | nil => rfl
    | cons b r =>
      rw [NoAdjU, List.chain'_cons] at h
      simp only [collapseU, if_neg h.1]
      rw [ih h.2]

theorem mem_collapseU {c : Char} {l : Str} (h : c ∈ collapseU l) : c ∈ l := by
  induction l with
  | nil => exact h
  | cons a rest ih =>
    cases rest with
    | nil => exact h
    | cons b r =>
      by_cases hab : a = '_' ∧ b = '_'
      · simp only [collapseU, if_pos hab] at h
        exact List.mem_cons_of_mem a (ih h)
      · simp only [collapseU, if_neg hab, List.mem_cons] at h
        rcases h with h1 | h2
        · exact List.mem_cons.mpr (Or.inl h1)
        · exact List.mem_cons_of_mem a (ih h2)

theorem mem_trimLeadU {c : Char} {l : Str} (h : c ∈ trimLeadU l) : c ∈ l := by
  unfold trimLeadU at h
  split at h
  · exact List.mem_of_mem_tail h
  · exact h

theorem mem_trimTrailU {c : Char} {l : Str} (h : c ∈ trimTrailU l) : c ∈ l := by
  unfold trimTrailU at h
  rw [List.mem_reverse] at h
  have h2 := mem_trimLeadU h
  rwa [List.mem_reverse] at h2

theorem replU_mem_range {c : Char} : isAlnumA (replU c) = true ∨ replU c = '_' := by
  unfold replU
  split
  · left; assumption
  · right; rfl

theorem chars_canonicalize {c : Char} {l : Str} (h : c ∈ canonicalize l) :
    isAlnumA c = true ∨ c = '_' := by
  unfold canonicalize at h
  have h1 := mem_collapseU (mem_trimLeadU (mem_trimTrailU h))
  rcases List.mem_map.mp h1 with ⟨x, _, hx⟩
  rw [← hx]
  exact replU_mem_range

theorem noAdjU_trimLeadU {l : Str} (h : NoAdjU l) : NoAdjU (trimLeadU l) := by
  unfold trimLeadU
  split
  · exact List.Chain'.tail h
  · exact h

theorem noAdjU_reverse {l : Str} : NoAdjU l.reverse ↔ NoAdjU l := by
  unfold NoAdjU
  rw [List.chain'_reverse]
  constructor
  · intro h
    exact h.imp (fun a b hab hc => hab ⟨hc.2, hc.1⟩)
  · intro h
    exact h.imp (fun a b hab hc => hab ⟨hc.2, hc.1⟩)

theorem hnu_trimLeadU {l : Str} (h : NoAdjU l) : HNU (trimLeadU l) := by
  unfold trimLeadU HNU
  split
  · next heq =>
    cases l with
    | nil => simp at heq
    | cons a t =>
      simp only [List.head?_cons, Option.some.injEq] at heq
      subst heq
      cases t with
      | nil => simp
      | cons b r =>
        rw [NoAdjU, List.chain'_cons] at h
        simp only [List.tail_cons, ne_eq, List.head?_cons, Option.some.injEq]
        intro hb
        exact h.1 ⟨rfl, hb⟩
  · next heq => exact heq

theorem getLast?_trimLeadU (l : Str) :
    (trimLeadU l).getLast? = l.getLast? ∨ trimLeadU l = [] := by
  unfold trimLeadU
  split
  · next heq =>
    cases l with
    | nil => right; rfl
    | cons a t =>
      cases t with
      | nil => right; rfl
      | cons b r =>
        left
        simp only [List.tail_cons]
        rw [List.getLast?_cons_cons]
  · left; rfl

theorem hnu_trimTrailU {l : Str} (h : HNU l) : HNU (trimTrailU l) := by
  unfold trimTrailU HNU
  rw [List.head?_reverse]
  rcases getLast?_trimLeadU l.reverse with h1 | h1
  · rw [h1, List.getLast?_reverse]
    exact h
  · rw [h1]
    simp

theorem noAdjU_trimTrailU {l : Str} (h : NoAdjU l) : NoAdjU (trimTrailU l) := by
  unfold trimTrailU
  rw [noAdjU_reverse]
  exact noAdjU_trimLeadU (noAdjU_reverse.mpr h)

theorem trimLeadU_eq_self {l : Str} (h : HNU l) : trimLeadU l = l := by
  unfold trimLeadU
  rw [if_neg h]

theorem trimTrailU_eq_self {l : Str} (h : HNU l.reverse) : trimTrailU l = l := by
  unfold trimTrailU
  rw [trimLeadU_eq_self h, List.reverse_reverse]

/-- Sanity check: `trimTrailU` agrees with the direct `getLast?`/`dropLast`
reading of the `pop_back` in the source. -/
theorem trimTrailU_spec (l : Str) :
    trimTrailU l = if l.getLast? = some '_' then l.dropLast else l := by
  rcases List.eq_nil_or_concat l with h | ⟨t, b, h⟩
  · subst h; rfl
  · subst h
    rw [List.concat_eq_append]
    unfold trimTrailU trimLeadU
    rw [List.reverse_append]
    simp only [List.reverse_cons, List.reverse_nil, List.nil_append,
      List.singleton_append, List.head?_cons]
    by_cases hb : b = '_'
    · subst hb
      rw [if_pos rfl, List.tail_cons, List.reverse_reverse,
        List.getLast?_concat, if_pos rfl, List.dropLast_concat]
    · rw [if_neg (by simpa using hb), List.getLast?_concat,
        if_neg (by simpa using hb)]
      simp [List.reverse_cons, List.reverse_reverse]

theorem star_not_mem_canonicalize {l : Str} : '*' ∉ canonicalize l := by
  intro h
  rcases chars_canonicalize h with h1 | h1
  · exact absurd h1 (by decide)
  · exact absurd h1 (by decide)

/-! ## Infix preservation through canonicalization -/

theorem prefix_collapseU {w l : Str} (ha : ∀ c ∈ w, isAlnumA c = true)
    (h : w <+: l) : w <+: collapseU l := by
  induction l generalizing w with
  | nil => exact h
  | cons a rest ih =>
    cases w with
    | nil => exact List.nil_prefix
    | cons x w2 =>
      rw [List.cons_prefix_cons] at h
      obtain ⟨rfl, h2⟩ := h
      cases rest with
      | nil =>
        have hw2 : w2 = [] := by simpa using h2
        subst hw2
        simp [collapseU]
      | cons b r =>
        have hx : ¬(x = '_' ∧ b = '_') := by
          intro hc
          have h3 := ha x (List.mem_cons_self _ _)
          rw [hc.1, isAlnumA_underscore] at h3
          exact Bool.false_ne_true h3
        simp only [collapseU, if_neg hx]
        rw [List.cons_prefix_cons]
        exact ⟨rfl, ih (fun c hc => ha c (List.mem_cons_of_mem _ hc)) h2⟩

theorem infix_collapseU {w l : Str} (ha : ∀ c ∈ w, isAlnumA c = true)
    (h : w <:+: l) : w <:+: collapseU l := by
  induction l with
  | nil => exact h
  | cons a rest ih =>
    rw [List.infix_cons_iff] at h
    rcases h with h | h
    · exact (prefix_collapseU ha h).isInfix
    · have h2 := ih h
      cases rest with
      | nil =>
        have hw : w = [] := by
          rw [show collapseU [] = [] from rfl] at h2
          simpa using h2
        subst hw
        exact List.nil_infix
      | cons b r =>
        by_cases hab : a = '_' ∧ b = '_'
        · simpa only [collapseU, if_pos hab] using h2
        · simp only [collapseU, if_neg hab]
          exact List.infix_cons_iff.mpr (Or.inr h2)

theorem infix_trimLeadU {w l : Str} (hu : '_' ∉ w) (h : w <:+: l) :
    w <:+: trimLeadU l := by
  unfold trimLeadU
  split
  · next heq =>
    cases l with
    | nil => simpa using h
    | cons a t =>
      simp only [List.head?_cons, Option.some.injEq] at heq
      subst heq
      rw [List.infix_cons_iff] at h
      rcases h with h | h
      · cases w with
        | nil => exact List.nil_infix
        | cons x w2 =>
          rw [List.cons_prefix_cons] at h
          exact absurd (h.1 ▸ List.mem_cons_self x w2) hu
      · simpa using h
  · exact h

theorem infix_trimTrailU {w l : Str} (hu : '_' ∉ w) (h : w <:+: l) :
    w <:+: trimTrailU l := by
  unfold trimTrailU
  have h1 : w.reverse <:+: l.reverse := List.reverse_infix.mpr h
  have h2 : w.reverse <:+: trimLeadU l.reverse :=
    infix_trimLeadU (by simpa using hu) h1
  have h3 := List.reverse_infix.mpr h2
  rwa [List.reverse_reverse] at h3

theorem infix_canonicalize {w l : Str} (ha : ∀ c ∈ w, isAlnumA c = true)
    (h : w <:+: l) : w <:+: canonicalize l := by
  have hu : '_' ∉ w := fun hmem => by
    have h2 := ha _ hmem
    rw [isAlnumA_underscore] at h2
    exact Bool.false_ne_true h2
  have h1 : w.map replU <:+: l.map replU := List.IsInfix.map replU h
  rw [map_self_of_fixed (fun c hc => by unfold replU; rw [if_pos (ha c hc)])] at h1
  exact infix_trimTrailU hu (infix_trimLeadU hu (infix_collapseU ha h1))

/-- C8: the canonicalization function is idempotent: for every string `s`,
`canonicalize (canonicalize s) = canonicalize s`, where `canonicalize` maps
non-alphanumeric characters to underscores, collapses underscore runs to a
single underscore, and trims leading/trailing underscores. -/
theorem c8_canonicalize_idem (s : Str) :
    canonicalize (canonicalize s) = canonicalize s := by
  have hfix : ∀ c ∈ canonicalize s, replU c = c := by
    intro c hc
    rcases chars_canonicalize hc with h1 | h1
    · unfold replU; rw [if_pos h1]
    · subst h1; decide
  have Ncan : NoAdjU (canonicalize s) :=
    noAdjU_trimTrailU (noAdjU_trimLeadU (noAdjU_collapseU _))
  have Hcan : HNU (canonicalize s) :=
    hnu_trimTrailU (hnu_trimLeadU (noAdjU_collapseU _))
  have HcanR : HNU (canonicalize s).reverse := by
    show HNU (trimTrailU (trimLeadU (collapseU (s.map replU)))).reverse
    unfold trimTrailU
    rw [List.reverse_reverse]
    exact hnu_trimLeadU (noAdjU_reverse.mpr (noAdjU_trimLeadU (noAdjU_collapseU _)))
  calc canonicalize (canonicalize s)
      = trimTrailU (trimLeadU (collapseU ((canonicalize s).map replU))) := rfl
    _ = trimTrailU (trimLeadU (collapseU (canonicalize s))) := by
        rw [map_self_of_fixed hfix]
    _ = trimTrailU (trimLeadU (canonicalize s)) := by rw [collapseU_eq_self Ncan]
    _ = trimTrailU (canonicalize s) := by rw [trimLeadU_eq_self Hcan]
    _ = canonicalize s := trimTrailU_eq_self HcanR

/-! ## Classifier lemmas -/

theorem classify_range (s : Str) :
    classify s ∈ ["PushButtonQT".toList, "ScrollViewQT".toList, "ModuleQT".toList,
      "TextFieldQT".toList, "CheckBoxQT".toList, "RadioButtonQT".toList,
      "ComboBoxQT".toList, "SliderQT".toList, "LabelQT".toList,
      "QWidget".toList] := by
  dsimp only [classify]
  by_cases h1 : lowerStr s = "button".toList
  · rw [if_pos h1]; decide
  rw [if_neg h1]
  by_cases h2 : lowerStr s = "container".toList
  · rw [if_pos h2]; decide
  rw [if_neg h2]
  by_cases h3 : lowerStr s = "form".toList
  · rw [if_pos h3]; decide
  rw [if_neg h3]
  by_cases h4 : lowerStr s = "textfield".toList
  · rw [if_pos h4]; decide
  rw [if_neg h4]
  by_cases h5 : endsWithA (lowerStr s) "button".toList = true
  · rw [if_pos h5]; decide
  rw [if_neg h5]
  by_cases h6 : endsWithA (lowerStr s) "checkbox".toList = true
  · rw [if_pos h6]; decide
  rw [if_neg h6]
  by_cases h7 : endsWithA (lowerStr s) "radiobutton".toList = true
  · rw [if_pos h7]; decide
  rw [if_neg h7]
  by_cases h8 : endsWithA (lowerStr s) "combobox".toList = true
  · rw [if_pos h8]; decide
  rw [if_neg h8]
  by_cases h9 : endsWithA (lowerStr s) "slider".toList = true
  · rw [if_pos h9]; decide
  rw [if_neg h9]
  by_cases h10 : endsWithA (lowerStr s) "label".toList = true
  · rw [if_pos h10]; decide
  rw [if_neg h10]
  by_cases h11 : endsWithA (lowerStr s) "view".toList = true
  · rw [if_pos h11]; decide
  rw [if_neg h11]
  by_cases h12 : endsWithA (lowerStr s) "field".toList = true
  · rw [if_pos h12]; decide
  rw [if_neg h12]
  by_cases h13 : containsA (lowerStr s) "button".toList = true
  · rw [if_pos h13]; decide
  rw [if_neg h13]
  by_cases h14 : containsA (lowerStr s) "field".toList = true
  · rw [if_pos h14]; decide
  rw [if_neg h14]
  by_cases h15 : containsA (lowerStr s) "text".toList = true
  · rw [if_pos h15]; decide
  rw [if_neg h15]
  by_cases h16 : containsA (lowerStr s) "container".toList = true
  · rw [if_pos h16]; decide
  rw [if_neg h16]
  by_cases h17 : containsA (lowerStr s) "panel".toList = true
  · rw [if_pos h17]; decide
  rw [if_neg h17]
  by_cases h18 : containsA (lowerStr s) "form".toList = true
  · rw [if_pos h18]; decide
  rw [if_neg h18]
  decide

theorem classify_chars (s : Str) :
    classify s ≠ [] ∧ ∀ c ∈ classify s, isAlnumA c = true := by
  have h := classify_range s
  simp only [List.mem_cons, List.not_mem_nil, or_false] at h
  rcases h with h | h | h | h | h | h | h | h | h | h <;> rw [h] <;>
    exact ⟨by decide, by decide⟩

theorem classify_lowerStr (s : Str) : classify (lowerStr s) = classify s := by
  unfold classify
  rw [lowerStr_idem]

theorem classify_eq_rules (s : Str) : classify s = classifyByRules s := by
  dsimp only [classify, classifyByRules, classifierRules]
  by_cases h1 : lowerStr s = "button".toList
  · rw [if_pos h1,
      List.find?_cons_of_pos _ (by simpa using h1)]
  by_cases h2 : lowerStr s = "container".toList
  · rw [if_neg h1,
      if_pos h2,
      List.find?_cons_of_neg _ (by simpa using h1),
      List.find?_cons_of_pos _ (by simpa using h2)]
  by_cases h3 : lowerStr s = "form".toList
  · rw [if_neg h1,
      if_neg h2,
      if_pos h3,
      List.find?_cons_of_neg _ (by simpa using h1),
      List.find?_cons_of_neg _ (by simpa using h2),
      List.find?_cons_of_pos _ (by simpa using h3)]
  by_cases h4 : lowerStr s = "textfield".toList
  · rw [if_neg h1,
      if_neg h2,
      if_neg h3,
      if_pos h4,
      List.find?_cons_of_neg _ (by simpa using h1),
      List.find?_cons_of_neg _ (by simpa using h2),
      List.find?_cons_of_neg _ (by simpa using h3),
      List.find?_cons_of_pos _ (by simpa using h4)]
  by_cases h5 : endsWithA (lowerStr s) "button".toList = true
  · rw [if_neg h1,
      if_neg h2,
      if_neg h3,
      if_neg h4,
      if_pos h5,
      List.find?_cons_of_neg _ (by simpa using h1),
      List.find?_cons_of_neg _ (by simpa using h2),
      List.find?_cons_of_neg _ (by simpa using h3),
      List.find?_cons_of_neg _ (by simpa using h4),
      List.find?_cons_of_pos _ (by simpa using h5)]
  by_cases h6 : endsWithA (lowerStr s) "checkbox".toList = true
  · rw [if_neg h1,
      if_neg h2,
      if_neg h3,
      if_neg h4,
      if_neg h5,
      if_pos h6,
      List.find?_cons_of_neg _ (by simpa using h1),
      List.find?_cons_of_neg _ (by simpa using h2),
      List.find?_cons_of_neg _ (by simpa using h3),
      List.find?_cons_of_neg _ (by simpa using h4),
      List.find?_cons_of_neg _ (by simpa using h5),
      List.find?_cons_of_pos _ (by simpa using h6)]
  by_cases h7 : endsWithA (lowerStr s) "radiobutton".toList = true
  · rw [if_neg h1,
      if_neg h2,
      if_neg h3,
      if_neg h4,
      if_neg h5,
      if_neg h6,
      if_pos h7,
      List.find?_cons_of_neg _ (by simpa using h1),
      List.find?_cons_of_neg _ (by simpa using h2),
      List.find?_cons_of_neg _ (by simpa using h3),
      List.find?_cons_of_neg _ (by simpa using h4),
      List.find?_cons_of_neg _ (by simpa using h5),
      List.find?_cons_of_neg _ (by simpa using h6),
      List.find?_cons_of_pos _ (by simpa using h7)]
  by_cases h8 : endsWithA (lowerStr s) "combobox".toList = true
  · rw [if_neg h1,
      if_neg h2,
      if_neg h3,
      if_neg h4,
      if_neg h5,
      if_neg h6,
      if_neg h7,
      if_pos h8,
      List.find?_cons_of_neg _ (by simpa using h1),
      List.find?_cons_of_neg _ (by simpa using h2),
      List.find?_cons_of_neg _ (by simpa using h3),
      List.find?_cons_of_neg _ (by simpa using h4),
      List.find?_cons_of_neg _ (by simpa using h5),
      List.find?_cons_of_neg _ (by simpa using h6),
      List.find?_cons_of_neg _ (by simpa using h7),
      List.find?_cons_of_pos _ (by simpa using h8)]
  by_cases h9 : endsWithA (lowerStr s) "slider".toList = true
  · rw [if_neg h1,
      if_neg h2,
      if_neg h3,
      if_neg h4,
      if_neg h5,
      if_neg h6,
      if_neg h7,
      if_neg h8,
      if_pos h9,
      List.find?_cons_of_neg _ (by simpa using h1),
      List.find?_cons_of_neg _ (by simpa using h2),
      List.find?_cons_of_neg _ (by simpa using h3),
      List.find?_cons_of_neg _ (by simpa using h4),
      List.find?_cons_of_neg _ (by simpa using h5),
      List.find?_cons_of_neg _ (by simpa using h6),
      List.find?_cons_of_neg _ (by simpa using h7),
      List.find?_cons_of_neg _ (by simpa using h8),
      List.find?_cons_of_pos _ (by simpa using h9)]
  by_cases h10 : endsWithA (lowerStr s) "label".toList = true
  · rw [if_neg h1,
      if_neg h2,
      if_neg h3,
      if_neg h4,
      if_neg h5,
      if_neg h6,
      if_neg h7,
      if_neg h8,
      if_neg h9,
      if_pos h10,
      List.find?_cons_of_neg _ (by simpa using h1),
      List.find?_cons_of_neg _ (by simpa using h2),
      List.find?_cons_of_neg _ (by simpa using h3),
      List.find?_cons_of_neg _ (by simpa using h4),
      List.find?_cons_of_neg _ (by simpa using h5),
      List.find?_cons_of_neg _ (by simpa using h6),
      List.find?_cons_of_neg _ (by simpa using h7),
      List.find?_cons_of_neg _ (by simpa using h8),
      List.find?_cons_of_neg _ (by simpa using h9),
      List.find?_cons_of_pos _ (by simpa using h10)]
  by_cases h11 : endsWithA (lowerStr s) "view".toList = true
  · rw [if_neg h1,
      if_neg h2,
      if_neg h3,
      if_neg h4,
      if_neg h5,
      if_neg h6,
      if_neg h7,
      if_neg h8,
      if_neg h9,
      if_neg h10,
      if_pos h11,
      List.find?_cons_of_neg _ (by simpa using h1),
      List.find?_cons_of_neg _ (by simpa using h2),
      List.find?_cons_of_neg _ (by simpa using h3),
      List.find?_cons_of_neg _ (by simpa using h4),
      List.find?_cons_of_neg _ (by simpa using h5),
      List.find?_cons_of_neg _ (by simpa using h6),
      List.find?_cons_of_neg _ (by simpa using h7),
      List.find?_cons_of_neg _ (by simpa using h8),
      List.find?_cons_of_neg _ (by simpa using h9),
      List.find?_cons_of_neg _ (by simpa using h10),
      List.find?_cons_of_pos _ (by simpa using h11)]
  by_cases h12 : endsWithA (lowerStr s) "field".toList = true
  · rw [if_neg h1,
      if_neg h2,
      if_neg h3,
      if_neg h4,
      if_neg h5,
      if_neg h6,
      if_neg h7,
      if_neg h8,
      if_neg h9,
      if_neg h10,
      if_neg h11,
      if_pos h12,
      List.find?_cons_of_neg _ (by simpa using h1),
      List.find?_cons_of_neg _ (by simpa using h2),
      List.find?_cons_of_neg _ (by simpa using h3),
      List.find?_cons_of_neg _ (by simpa using h4),
      List.find?_cons_of_neg _ (by simpa using h5),
      List.find?_cons_of_neg _ (by simpa using h6),
      List.find?_cons_of_neg _ (by simpa using h7),
      List.find?_cons_of_neg _ (by simpa using h8),
      List.find?_cons_of_neg _ (by simpa using h9),
      List.find?_cons_of_neg _ (by simpa using h10),
      List.find?_cons_of_neg _ (by simpa using h11),
      List.find?_cons_of_pos _ (by simpa using h12)]
  by_cases h13 : containsA (lowerStr s) "button".toList = true
  · rw [if_neg h1,
      if_neg h2,
      if_neg h3,
      if_neg h4,
      if_neg h5,
      if_neg h6,
      if_neg h7,
      if_neg h8,
      if_neg h9,
      if_neg h10,
      if_neg h11,
      if_neg h12,
      if_pos h13,
      List.find?_cons_of_neg _ (by simpa using h1),
      List.find?_cons_of_neg _ (by simpa using h2),
      List.find?_cons_of_neg _ (by simpa using h3),
      List.find?_cons_of_neg _ (by simpa using h4),
      List.find?_cons_of_neg _ (by simpa using h5),
      List.find?_cons_of_neg _ (by simpa using h6),
      List.find?_cons_of_neg _ (by simpa using h7),
      List.find?_cons_of_neg _ (by simpa using h8),
      List.find?_cons_of_neg _ (by simpa using h9),
      List.find?_cons_of_neg _ (by simpa using h10),
      List.find?_cons_of_neg _ (by simpa using h11),
      List.find?_cons_of_neg _ (by simpa using h12),
      List.find?_cons_of_pos _ (by simpa using h13)]
  by_cases h14 : containsA (lowerStr s) "field".toList = true
  · rw [if_neg h1,
      if_neg h2,
      if_neg h3,
      if_neg h4,
      if_neg h5,
      if_neg h6,
      if_neg h7,
      if_neg h8,
      if_neg h9,
      if_neg h10,
      if_neg h11,
      if_neg h12,
      if_neg h13,
      if_pos h14,
      List.find?_cons_of_neg _ (by simpa using h1),
      List.find?_cons_of_neg _ (by simpa using h2),
      List.find?_cons_of_neg _ (by simpa using h3),
      List.find?_cons_of_neg _ (by simpa using h4),
      List.find?_cons_of_neg _ (by simpa using h5),
      List.find?_cons_of_neg _ (by simpa using h6),
      List.find?_cons_of_neg _ (by simpa using h7),
      List.find?_cons_of_neg _ (by simpa using h8),
      List.find?_cons_of_neg _ (by simpa using h9),
      List.find?_cons_of_neg _ (by simpa using h10),
      List.find?_cons_of_neg _ (by simpa using h11),
      List.find?_cons_of_neg _ (by simpa using h12),
      List.find?_cons_of_neg _ (by simpa using h13),
      List.find?_cons_of_pos _ (by simpa using h14)]
  by_cases h15 : containsA (lowerStr s) "text".toList = true
  · rw [if_neg h1,
      if_neg h2,
      if_neg h3,
      if_neg h4,
      if_neg h5,
      if_neg h6,
      if_neg h7,
      if_neg h8,
      if_neg h9,
      if_neg h10,
      if_neg h11,
      if_neg h12,
      if_neg h13,
      if_neg h14,
      if_pos h15,
      List.find?_cons_of_neg _ (by simpa using h1),
      List.find?_cons_of_neg _ (by simpa using h2),
      List.find?_cons_of_neg _ (by simpa using h3),
      List.find?_cons_of_neg _ (by simpa using h4),
      List.find?_cons_of_neg _ (by simpa using h5),
      List.find?_cons_of_neg _ (by simpa using h6),
      List.find?_cons_of_neg _ (by simpa using h7),
      List.find?_cons_of_neg _ (by simpa using h8),
      List.find?_cons_of_neg _ (by simpa using h9),
      List.find?_cons_of_neg _ (by simpa using h10),
      List.find?_cons_of_neg _ (by simpa using h11),
      List.find?_cons_of_neg _ (by simpa using h12),
      List.find?_cons_of_neg _ (by simpa using h13),
      List.find?_cons_of_neg _ (by simpa using h14),
      List.find?_cons_of_pos _ (by simpa using h15)]
  by_cases h16 : containsA (lowerStr s) "container".toList = true
  · rw [if_neg h1,
      if_neg h2,
      if_neg h3,
      if_neg h4,
      if_neg h5,
      if_neg h6,
      if_neg h7,
      if_neg h8,
      if_neg h9,
      if_neg h10,
      if_neg h11,
      if_neg h12,
      if_neg h13,
      if_neg h14,
      if_neg h15,
      if_pos h16,
      List.find?_cons_of_neg _ (by simpa using h1),
      List.find?_cons_of_neg _ (by simpa using h2),
      List.find?_cons_of_neg _ (by simpa using h3),
      List.find?_cons_of_neg _ (by simpa using h4),
      List.find?_cons_of_neg _ (by simpa using h5),
      List.find?_cons_of_neg _ (by simpa using h6),
      List.find?_cons_of_neg _ (by simpa using h7),
      List.find?_cons_of_neg _ (by simpa using h8),
      List.find?_cons_of_neg _ (by simpa using h9),
      List.find?_cons_of_neg _ (by simpa using h10),
      List.find?_cons_of_neg _ (by simpa using h11),
      List.find?_cons_of_neg _ (by simpa using h12),
      List.find?_cons_of_neg _ (by simpa using h13),
      List.find?_cons_of_neg _ (by simpa using h14),
      List.find?_cons_of_neg _ (by simpa using h15),
      List.find?_cons_of_pos _ (by simpa using h16)]
  by_cases h17 : containsA (lowerStr s) "panel".toList = true
  · rw [if_neg h1,
      if_neg h2,
      if_neg h3,
      if_neg h4,
      if_neg h5,
      if_neg h6,
      if_neg h7,
      if_neg h8,
      if_neg h9,
      if_neg h10,
      if_neg h11,
      if_neg h12,
      if_neg h13,
      if_neg h14,
      if_neg h15,
      if_neg h16,
      if_pos h17,
      List.find?_cons_of_neg _ (by simpa using h1),
      List.find?_cons_of_neg _ (by simpa using h2),
      List.find?_cons_of_neg _ (by simpa using h3),
      List.find?_cons_of_neg _ (by simpa using h4),
      List.find?_cons_of_neg _ (by simpa using h5),
      List.find?_cons_of_neg _ (by simpa using h6),
      List.find?_cons_of_neg _ (by simpa using h7),
      List.find?_cons_of_neg _ (by simpa using h8),
      List.find?_cons_of_neg _ (by simpa using h9),
      List.find?_cons_of_neg _ (by simpa using h10),
      List.find?_cons_of_neg _ (by simpa using h11),
      List.find?_cons_of_neg _ (by simpa using h12),
      List.find?_cons_of_neg _ (by simpa using h13),
      List.find?_cons_of_neg _ (by simpa using h14),
      List.find?_cons_of_neg _ (by simpa using h15),
      List.find?_cons_of_neg _ (by simpa using h16),
      List.find?_cons_of_pos _ (by simpa using h17)]
  by_cases h18 : containsA (lowerStr s) "form".toList = true
  · rw [if_neg h1,
      if_neg h2,
      if_neg h3,
      if_neg h4,
      if_neg h5,
      if_neg h6,
      if_neg h7,
      if_neg h8,
      if_neg h9,
      if_neg h10,
      if_neg h11,
      if_neg h12,
      if_neg h13,
      if_neg h14,
      if_neg h15,
      if_neg h16,
      if_neg h17,
      if_pos h18,
      List.find?_cons_of_neg _ (by simpa using h1),
      List.find?_cons_of_neg _ (by simpa using h2),
      List.find?_cons_of_neg _ (by simpa using h3),
      List.find?_cons_of_neg _ (by simpa using h4),
      List.find?_cons_of_neg _ (by simpa using h5),
      List.find?_cons_of_neg _ (by simpa using h6),
      List.find?_cons_of_neg _ (by simpa using h7),
      List.find?_cons_of_neg _ (by simpa using h8),
      List.find?_cons_of_neg _ (by simpa using h9),
      List.find?_cons_of_neg _ (by simpa using h10),
      List.find?_cons_of_neg _ (by simpa using h11),
      List.find?_cons_of_neg _ (by simpa using h12),
      List.find?_cons_of_neg _ (by simpa using h13),
      List.find?_cons_of_neg _ (by simpa using h14),
      List.find?_cons_of_neg _ (by simpa using h15),
      List.find?_cons_of_neg _ (by simpa using h16),
      List.find?_cons_of_neg _ (by simpa using h17),
      List.find?_cons_of_pos _ (by simpa using h18)]
  rw [if_neg h1,
    if_neg h2,
    if_neg h3,
    if_neg h4,
    if_neg h5,
    if_neg h6,
    if_neg h7,
    if_neg h8,
    if_neg h9,
    if_neg h10,
    if_neg h11,
    if_neg h12,
    if_neg h13,
    if_neg h14,
    if_neg h15,
    if_neg h16,
    if_neg h17,
    if_neg h18,
    List.find?_cons_of_neg _ (by simpa using h1),
    List.find?_cons_of_neg _ (by simpa using h2),
    List.find?_cons_of_neg _ (by simpa using h3),
    List.find?_cons_of_neg _ (by simpa using h4),
    List.find?_cons_of_neg _ (by simpa using h5),
    List.find?_cons_of_neg _ (by simpa using h6),
    List.find?_cons_of_neg _ (by simpa using h7),
    List.find?_cons_of_neg _ (by simpa using h8),
    List.find?_cons_of_neg _ (by simpa using h9),
    List.find?_cons_of_neg _ (by simpa using h10),
    List.find?_cons_of_neg _ (by simpa using h11),
    List.find?_cons_of_neg _ (by simpa using h12),
    List.find?_cons_of_neg _ (by simpa using h13),
    List.find?_cons_of_neg _ (by simpa using h14),
    List.find?_cons_of_neg _ (by simpa using h15),
    List.find?_cons_of_neg _ (by simpa using h16),
    List.find?_cons_of_neg _ (by simpa using h17),
    List.find?_cons_of_neg _ (by simpa using h18),
    List.find?_nil]

/-- C5: the classifier is a total function of the tag name (with the default
fallback label `QWidget` when no rule matches), is case-insensitive, and
agrees with the fixed ordered first-match rule list (exact matches before
suffix matches before substring matches); in particular the tag `button`
resolves via the exact-match rule to `PushButtonQT`, even though the
lowercased tag also satisfies the later contains-rule for `button`. -/
theorem c5_classifier :
    (∀ s : Str, classify s = classifyByRules s) ∧
    (∀ s : Str, classify (lowerStr s) = classify s) ∧
    classify "button".toList = "PushButtonQT".toList ∧
    containsA (lowerStr "button".toList) "button".toList = true ∧
    (∀ s : Str, (∀ r ∈ classifierRules, r.1 (lowerStr s) = false) →
      classify s = "QWidget".toList) := by
  refine ⟨classify_eq_rules, classify_lowerStr, by decide, by decide, ?_⟩
  intro s hr
  rw [classify_eq_rules s]
  simp only [classifyByRules]
  rw [List.find?_eq_none.mpr (fun r hmem => by rw [hr r hmem]; exact Bool.false_ne_true)]

/-- Witness for C5 at concrete inputs: the unmatched tag `zzz` falls back to
`QWidget`, and `button` maps to `PushButtonQT`. -/
theorem c5_classifier_witness :
    classify "zzz".toList = "QWidget".toList ∧
    classify "button".toList = "PushButtonQT".toList :=
  ⟨c5_classifier.2.2.2.2 "zzz".toList (by decide), c5_classifier.2.2.1⟩

/-! ## Converter lemmas -/

theorem uid_foldl_eq (conds : List Cond) (u0 : Str) :
    conds.foldl (fun u c =>
      match c with
      | .attr a => u ++ ['_'] ++ a.name ++ ['_'] ++ a.value
      | .pos _ => u) u0 =
    u0 ++ conds.foldr (fun c acc =>
      match c with
      | .attr a => ['_'] ++ a.name ++ ['_'] ++ a.value ++ acc
      | .pos _ => acc) [] := by
  induction conds generalizing u0 with
  | nil => simp
  | cons c rest ih =>
    cases c with
    | attr a =>
      simp only [List.foldl_cons, List.foldr_cons]
      rw [ih]
      simp [List.append_assoc]
    | pos pp =>
      simp only [List.foldl_cons, List.foldr_cons]
      exact ih u0

theorem generateUid_eq_spec (parent : Str) (step : XLocator) (arch : Str) :
    generateUid parent step arch =
      uidSpec parent (if step.tag = ['*'] then "any".toList else step.tag) arch
        (condsOf step) := by
  dsimp only [generateUid, uidSpec, condsOf]
  cases hp : step.predicate with
  | none =>
    dsimp only
    by_cases hpar : parent = []
    · simp [hpar, List.append_assoc]
    · simp [hpar, List.append_assoc]
  | some p =>
    dsimp only
    rw [uid_foldl_eq]
    by_cases hpar : parent = []
    · simp [hpar, List.append_assoc]
    · simp [hpar, List.append_assoc]

/-- The pre-canonicalization uid string always has the shape
`prefix ++ token ++ "_" ++ arch ++ suffix`, with the token the node-test
text or "any". -/
theorem generateUid_infix_token (parent : Str) (step : XLocator) (arch : Str)
    (tk : Str) (htk : tk = (if step.tag = ['*'] then "any".toList else step.tag))
    (ha : ∀ c ∈ tk, isAlnumA c = true) :
    tk <:+: generateUid parent step arch := by
  dsimp only [generateUid]
  rw [← htk]
  apply infix_canonicalize ha
  have hbase : tk <:+:
      (if parent = [] then tk ++ ['_'] ++ arch
       else parent ++ ['_'] ++ tk ++ ['_'] ++ arch) := by
    by_cases hpar : parent = []
    · rw [if_pos hpar]
      exact ⟨[], ['_'] ++ arch, by simp [List.append_assoc]⟩
    · rw [if_neg hpar]
      exact ⟨parent ++ ['_'], ['_'] ++ arch, by simp [List.append_assoc]⟩
  cases hp : step.predicate with
  | none => exact hbase
  | some p =>
    dsimp only
    rw [uid_foldl_eq]
    exact hbase.trans (List.prefix_append _ _).isInfix

/-- Likewise, the category label sits between underscore and the attribute
segments in the pre-canonicalization uid string. -/
theorem generateUid_infix_arch (parent : Str) (step : XLocator) (arch : Str)
    (ha : ∀ c ∈ arch, isAlnumA c = true) :
    arch <:+: generateUid parent step arch := by
  dsimp only [generateUid]
  apply infix_canonicalize ha
  have hbase : arch <:+:
      (if parent = [] then (if step.tag = ['*'] then "any".toList else step.tag) ++ ['_'] ++ arch
       else parent ++ ['_'] ++ (if step.tag = ['*'] then "any".toList else step.tag) ++ ['_'] ++ arch) := by
    by_cases hpar : parent = []
    · rw [if_pos hpar]
      exact ⟨(if step.tag = ['*'] then "any".toList else step.tag) ++ ['_'], [],
        by simp [List.append_assoc]⟩
    · rw [if_neg hpar]
      exact ⟨parent ++ ['_'] ++ (if step.tag = ['*'] then "any".toList else step.tag) ++ ['_'],
        [], by simp [List.append_assoc]⟩
  cases hp : step.predicate with
  | none => exact hbase
  | some p =>
    dsimp only
    rw [uid_foldl_eq]
    exact hbase.trans (List.prefix_append _ _).isInfix

/-- C2: for every step the converter builds
`uid = canonicalize(container + "_" + nodeTestText + "_" + category +
per-attribute-condition "_" + name + "_" + value)`, with nodeTestText the
literal "any" for the wildcard and the leading container segment omitted
when the container is empty; consequently a wildcard step's uid contains
the substring "any" and never the character `*`. -/
theorem c2_uid_formula (parent : Str) (step : XLocator) (arch : Str) :
    generateUid parent step arch =
      uidSpec parent (if step.tag = ['*'] then "any".toList else step.tag) arch
        (condsOf step) ∧
    (step.tag = ['*'] →
      "any".toList <:+: generateUid parent step arch ∧
      '*' ∉ generateUid parent step arch) := by
  refine ⟨generateUid_eq_spec parent step arch, fun hw => ⟨?_, ?_⟩⟩
  · exact generateUid_infix_token parent step arch _ (by rw [if_pos hw]) (by decide)
  · dsimp only [generateUid]
    exact star_not_mem_canonicalize

/-- Witness for C2 at a concrete wildcard step. -/
theorem c2_uid_formula_witness :
    generateUid [] wWild "QWidget".toList =
      uidSpec [] (if wWild.tag = ['*'] then "any".toList else wWild.tag)
        "QWidget".toList (condsOf wWild) ∧
    ("any".toList <:+: generateUid [] wWild "QWidget".toList ∧
      '*' ∉ generateUid [] wWild "QWidget".toList) :=
  ⟨(c2_uid_formula [] wWild "QWidget".toList).1,
   (c2_uid_formula [] wWild "QWidget".toList).2 (by decide)⟩

theorem convertAux_head_container (steps : List XLocator) (parent : Str)
    (h : 0 < (convertAux steps parent).length) :
    ((convertAux steps parent).get ⟨0, h⟩).container = parent := by
  cases steps with
  | nil => simp [convertAux] at h
  | cons st rest => rfl

theorem convertAux_chain (steps : List XLocator) (parent : Str) (i : Nat)
    (h : i + 1 < (convertAux steps parent).length) :
    ((convertAux steps parent).get ⟨i + 1, h⟩).container =
    ((convertAux steps parent).get ⟨i, by omega⟩).uid := by
  induction steps generalizing parent i with
  | nil => simp [convertAux] at h
  | cons st rest ih =>
    cases i with
    | zero =>
      have h2 : 0 + 1 < (convertAux (st :: rest) parent).length := h
      have hlen : 0 < (convertAux rest (generateUid parent st (classify st.tag))).length := by
        have h3 := h2
        simp only [convertAux, List.length_cons] at h3
        omega
      have hget : ((convertAux (st :: rest) parent).get ⟨1, h⟩) =
          ((convertAux rest (generateUid parent st (classify st.tag))).get ⟨0, hlen⟩) := rfl
      rw [hget, convertAux_head_container]
      rfl
    | succ k =>
      have hlen : k + 1 < (convertAux rest (generateUid parent st (classify st.tag))).length := by
        have h3 := h
        simp only [convertAux, List.length_cons] at h3
        omega
      have hget1 : ((convertAux (st :: rest) parent).get ⟨k + 2, h⟩) =
          ((convertAux rest (generateUid parent st (classify st.tag))).get ⟨k + 1, hlen⟩) := rfl
      have hget2 : ((convertAux (st :: rest) parent).get ⟨k + 1, by omega⟩) =
          ((convertAux rest (generateUid parent st (classify st.tag))).get ⟨k, by omega⟩) := rfl
      rw [hget1, hget2]
      exact ih (generateUid parent st (classify st.tag)) k hlen

/-- C3: in the converter's output, `locator[i].containerUid` equals
`locator[i-1].uid` for every `i > 0` (stated with `i+1` and `i`), and
`locator[0]` has an empty container; the chain follows emission order and
each new locator's uid becomes the running container. -/
theorem c3_container_chain (steps : List XLocator) :
    (∀ i (h : i + 1 < (convert steps).length),
      ((convert steps).get ⟨i + 1, h⟩).container =
      ((convert steps).get ⟨i, by omega⟩).uid) ∧
    (∀ h0 : 0 < (convert steps).length,
      ((convert steps).get ⟨0, h0⟩).container = []) :=
  ⟨fun i h => convertAux_chain steps [] i h,
   fun h0 => convertAux_head_container steps [] h0⟩

/-- Witness for C3 on a concrete two-step list. -/
theorem c3_container_chain_witness :
    ((convert [wStep, wWild]).get ⟨1, by decide⟩).container =
      ((convert [wStep, wWild]).get ⟨0, by decide⟩).uid ∧
    ((convert [wStep, wWild]).get ⟨0, by decide⟩).container = [] :=
  ⟨(c3_container_chain [wStep, wWild]).1 0 (by decide),
   (c3_container_chain [wStep, wWild]).2 (by decide)⟩

/-! ## Metadata lemmas -/

theorem jget_jset_self (m : List (Str × JVal)) (k : Str) (v : JVal) :
    jget (jset m k v) k = some v := by
  induction m with
  | nil => simp [jset, jget]
  | cons p rest ih =>
    obtain ⟨k2, v2⟩ := p
    by_cases h : k2 = k
    · simp [jset, jget, h]
    · simp only [jset, jget, if_neg h]
      exact ih

theorem jget_jset_ne (m : List (Str × JVal)) (k k2 : Str) (v : JVal)
    (h : k2 ≠ k) : jget (jset m k v) k2 = jget m k2 := by
  induction m with
  | nil =>
    simp only [jset, jget]
    rw [if_neg (fun he => h he.symm)]
  | cons p rest ih =>
    obtain ⟨k3, v3⟩ := p
    by_cases h3 : k3 = k
    · subst h3
      simp only [jset, if_pos rfl, jget]
      rw [if_neg (fun he => h he.symm), if_neg (fun he => h he.symm)]
    · simp only [jset, if_neg h3, jget]
      by_cases h4 : k3 = k2
      · rw [if_pos h4, if_pos h4]
      · rw [if_neg h4, if_neg h4]
        exact ih

theorem jget_fold_conds (conds : List Cond) (m : List (Str × JVal)) (k : Str)
    (hk : k ≠ "occurrence".toList) :
    jget (conds.foldl (fun m c =>
      match c with
      | .attr a => jset m a.name (.str a.value)
      | .pos pp => if pp.position > 1 then jset m "occurrence".toList (.num pp.position)
        else m) m) k =
    (match lastAttr conds k with
     | some v => some (.str v)
     | none => jget m k) := by
  induction conds generalizing m with
  | nil => simp [lastAttr]
  | cons c rest ih =>
    cases c with
    | attr a =>
      simp only [List.foldl_cons]
      rw [ih]
      cases hrest : lastAttr rest k with
      | some v => simp [lastAttr, hrest]
      | none =>
        by_cases hn : a.name = k
        · simp only [lastAttr, hrest, if_pos hn]
          rw [← hn, jget_jset_self]
        · simp only [lastAttr, hrest, if_neg hn]
          exact jget_jset_ne m a.name k (.str a.value) (fun he => hn he.symm)
    | pos pp =>
      simp only [List.foldl_cons]
      rw [ih]
      cases hrest : lastAttr rest k with
      | some v => simp [lastAttr, hrest]
      | none =>
        simp only [lastAttr, hrest]
        by_cases hp : pp.position > 1
        · rw [if_pos hp]
          exact jget_jset_ne m "occurrence".toList k (.num pp.position) hk
        · rw [if_neg hp]

/-- `stepMeta` written through `condsOf` (the two predicate cases
coincide). -/
theorem stepMeta_eq (arch : Str) (step : XLocator) :
    stepMeta arch step =
      jset ((condsOf step).foldl (fun m c =>
        match c with
        | .attr a => jset m a.name (.str a.value)
        | .pos pp => if pp.position > 1 then jset m "occurrence".toList (.num pp.position)
          else m) (jset [] "archetype".toList (.str arch)))
        "visible".toList (.num 1) := by
  dsimp only [stepMeta, condsOf]
  cases step.predicate with
  | none => rfl
  | some p => rfl

/-- C10: the fixed `visible` flag is written last and the category label
first: a step carrying an attribute condition named `visible` still maps
`visible` to the fixed value 1 (the attribute's value is discarded), while
an attribute condition named `archetype` overwrites the category label in
the metadata (the last such condition wins) even though the uid still
embeds the classifier's label. -/
theorem c10_meta_overwrites (parent : Str) (step : XLocator) :
    ((∃ a, Cond.attr a ∈ condsOf step ∧ a.name = "visible".toList) →
      jget (stepMeta (classify step.tag) step) "visible".toList = some (.num 1)) ∧
    (∀ v, lastAttr (condsOf step) "archetype".toList = some v →
      jget (stepMeta (classify step.tag) step) "archetype".toList = some (.str v)) ∧
    classify step.tag <:+: generateUid parent step (classify step.tag) := by
  refine ⟨fun _ => ?_, fun v hv => ?_, ?_⟩
  · rw [stepMeta_eq]
    exact jget_jset_self _ _ _
  · rw [stepMeta_eq]
    rw [jget_jset_ne _ _ _ _ (by decide)]
    rw [jget_fold_conds _ _ _ (by decide), hv]
  · exact generateUid_infix_arch parent step (classify step.tag)
      (classify_chars step.tag).2

/-- Witness for C10 at a concrete step carrying `visible` and `archetype`
attribute conditions. -/
theorem c10_meta_overwrites_witness :
    jget (stepMeta (classify wStep.tag) wStep) "visible".toList = some (.num 1) ∧
    jget (stepMeta (classify wStep.tag) wStep) "archetype".toList =
      some (.str "Custom".toList) ∧
    classify wStep.tag <:+: generateUid [] wStep (classify wStep.tag) :=
  ⟨(c10_meta_overwrites [] wStep).1
      ⟨⟨"visible".toList, "0".toList, "=".toList⟩, by decide, rfl⟩,
   (c10_meta_overwrites [] wStep).2.1 "Custom".toList (by decide),
   (c10_meta_overwrites [] wStep).2.2⟩

/-! ## Lexer and parser claims -/

/-- C1 counterexample: the lexer merges `//` into a single Slash token, so
for the input `//button` the parser's double-`match(Slash)` never sees two
Slash tokens: it emits exactly one step, with axis "child", and no
synthetic descendant-or-self step at all. -/
theorem c1_counterexample :
    tokenize "//button".toList =
      .ok [⟨.Slash, ['/', '/'], 0⟩, ⟨.Tag, "button".toList, 2⟩, ⟨.End, [], 8⟩] ∧
    (tokenize "//button".toList).bind parseSteps =
      .ok [⟨"child".toList, "button".toList, none, true⟩] := by
  exact ⟨by decide, by decide⟩

/-- C1 (amended): the parser emits the synthetic step
`{axis: descendant-or-self, nodeTest: *, predicate: none, isAbsolute: true}`
and continues the loop exactly when a step begins with TWO consecutive
Slash tokens (e.g. from `/ /` or `///`); a single double-slash token does
not trigger it. -/
theorem c1_amended (fuel : Nat) (t1 t2 : Token) (rest : List Token)
    (h1 : t1.type = .Slash) (h2 : t2.type = .Slash) :
    parseStepsAux (fuel + 1) (t1 :: t2 :: rest) =
      (parseStepsAux fuel rest).map (synthStep :: ·) := by
  simp only [parseStepsAux, cur, List.headD, List.drop_succ_cons, List.drop_zero,
    h1, h2]
  rfl

/-- Witness for C1 (amended) on two concrete consecutive Slash tokens. -/
theorem c1_amended_witness :
    parseStepsAux 1 [⟨.Slash, ['/', '/'], 0⟩, ⟨.Slash, ['/'], 2⟩, ⟨.End, [], 3⟩] =
      (parseStepsAux 0 [⟨.End, [], 3⟩]).map (synthStep :: ·) :=
  c1_amended 0 ⟨.Slash, ['/', '/'], 0⟩ ⟨.Slash, ['/'], 2⟩ [⟨.End, [], 3⟩] rfl rfl

/-- C4 counterexample: for the input `"abc` the opening quote is at offset
0, and lexing fails with the fixed message "Unterminated string literal",
which contains no digit at all: the error reports no offset, in particular
not the opening quote's. -/
theorem c4_counterexample :
    tokenize (dq :: "abc".toList) = .error "Unterminated string literal" ∧
    ∀ c ∈ "Unterminated string literal".toList, isDigitA c = false := by
  exact ⟨by decide, by decide⟩

/-- C4 (amended): whenever the lexer loop reaches an opening quote (`"` or
`'`) whose literal is unterminated (input ends before the matching closing
quote, honoring backslash escapes, i.e. the quote scan returns none),
lexing fails with the lexical error "Unterminated string literal"; the
error carries no offset. -/
theorem c4_amended (fuel p : Nat) (q : Char) (rest : Str)
    (hq : q = dq ∨ q = sq) (hun : lexLiteral q rest = none) :
    tokenizeAux (fuel + 1) (q :: rest) p = .error "Unterminated string literal" := by
  rcases hq with rfl | rfl <;>
  · simp only [tokenizeAux]
    rw [if_neg (by decide), if_neg (by decide), if_neg (by decide),
      if_neg (by decide), if_neg (by decide), if_neg (by decide),
      if_pos (by decide), hun]

/-- Witness for C4 (amended) on the concrete unterminated input `"ab`. -/
theorem c4_amended_witness :
    tokenizeAux 1 (dq :: "ab".toList) 0 = .error "Unterminated string literal" :=
  c4_amended 0 0 dq "ab".toList (Or.inl rfl) (by decide)

/-- C6 (code evaluation at the failing input): the lexer does not recognize
the multi-character axis `child::` — its lookahead only fires when the
character at offset pos+1 is already a colon — so `child::x` lexes as a
single Tag token `child::x`; a single-character axis name as in `x::y` is
recognized and consumed up to and including `::`. -/
theorem c6_axis_behavior :
    tokenize "child::x".toList =
      .ok [⟨.Tag, "child::x".toList, 0⟩, ⟨.End, [], 8⟩] ∧
    tokenize "x::y".toList =
      .ok [⟨.Axis, "x".toList, 0⟩, ⟨.Tag, "y".toList, 3⟩, ⟨.End, [], 4⟩] := by
  exact ⟨by decide, by decide⟩

/-- C7 (scenario B): the input `//button[@name='submit' and @enabled='true']`
parses to a single step whose predicate holds exactly the two attribute
conditions (the `and` keyword is consumed but contributes none), and
converts to exactly one locator whose metadata maps `name` to "submit" and
`enabled` to "true". -/
theorem c7_scenario_b :
    (tokenize c7input).bind parseSteps =
      .ok [⟨"child".toList, "button".toList,
        some ⟨[.attr ⟨"name".toList, "submit".toList, "=".toList⟩,
               .attr ⟨"enabled".toList, "true".toList, "=".toList⟩]⟩, true⟩] ∧
    ((tokenize c7input).bind parseSteps).map convert =
      .ok [⟨"button_PushButtonQT_name_submit_enabled_true".toList,
        [("archetype".toList, .str "PushButtonQT".toList),
         ("name".toList, .str "submit".toList),
         ("enabled".toList, .str "true".toList),
         ("visible".toList, .num 1)], []⟩] ∧
    jget [("archetype".toList, JVal.str "PushButtonQT".toList),
         ("name".toList, .str "submit".toList),
         ("enabled".toList, .str "true".toList),
         ("visible".toList, .num 1)] "name".toList = some (.str "submit".toList) ∧
    jget [("archetype".toList, JVal.str "PushButtonQT".toList),
         ("name".toList, .str "submit".toList),
         ("enabled".toList, .str "true".toList),
         ("visible".toList, .num 1)] "enabled".toList = some (.str "true".toList) := by
  exact ⟨by decide, by decide, by decide, by decide⟩

/-- C9 counterexample: running the pipeline on the input `a` from the
empty-cache state modifies the pipeline object's `_cache` field: the state
after the call differs from the state before it. -/
theorem c9_counterexample :
    (pipeRun ⟨[]⟩ "a".toList).2 ≠ (⟨[]⟩ : PipeState) := by decide

/-- C9 (amended): each call returns a freshly produced result that depends
only on the input — the result is independent of the pipeline object's
prior state — but the call does retain invocation data on the object: after
a successful call the mutable `_cache` field holds the converted locators
(and an aborted call leaves it unchanged). -/
theorem c9_amended (st st2 : PipeState) (input : Str) :
    (pipeRun st input).1 = (pipeRun st2 input).1 ∧
    (∀ steps, (tokenize input).bind parseSteps = .ok steps →
      (pipeRun st input).2 = ⟨convert steps⟩) ∧
    (∀ e, (tokenize input).bind parseSteps = .error e →
      (pipeRun st input).2 = st) := by
  cases h : (tokenize input).bind parseSteps with
  | error e =>
    refine ⟨?_, ?_, ?_⟩
    · simp [pipeRun, h]
    · intro steps hs
      exact nomatch hs
    · intro e2 he
      simp [pipeRun, h]
  | ok steps =>
    refine ⟨?_, ?_, ?_⟩
    · simp [pipeRun, h]
    · intro steps2 hs
      injection hs with hs
      subst hs
      simp [pipeRun, h]
    · intro e2 he
      exact nomatch he

/-- Witness for C9 (amended) on the concrete input `a` from two different
prior states. -/
theorem c9_amended_witness :
    (pipeRun ⟨[]⟩ "a".toList).1 = (pipeRun ⟨convert [wWild]⟩ "a".toList).1 ∧
    (pipeRun ⟨[]⟩ "a".toList).2 =
      ⟨convert [⟨"child".toList, "a".toList, none, false⟩]⟩ :=
  ⟨(c9_amended ⟨[]⟩ ⟨convert [wWild]⟩ "a".toList).1,
   (c9_amended ⟨[]⟩ ⟨convert [wWild]⟩ "a".toList).2.1
     [⟨"child".toList, "a".toList, none, false⟩] (by decide)⟩

end Hlat
